import Mathlib

/-!
Shallow embedding of the Polkadot v1 primitives (`primitives/src/v1.rs`):
the collator signature payload, collator signature check, candidate
receipts and their canonical hashing, the backing verifier
`check_candidate_backing`, and the validator-group rotation arithmetic of
`GroupRotationInfo`.

Modelling conventions:
 - machine integers (`u32`, `usize`, `BlockNumber`) are `Nat`; Rust
   `saturating_sub` on unsigned integers is Lean's truncated `Nat`
   subtraction; where the source caps a value (`min(cores, u32::MAX)`)
   the cap appears explicitly;
 - byte buffers are `List Nat`; `copy_from_slice` into a sub-range of a
   fixed buffer is the `setRange` splice;
 - the cryptographic primitives (blake2-256, sr25519 verification) and
   the SCALE codec of whole structures are external collaborators and are
   passed in as opaque function parameters (`Hf`, `verify`, `encD`,
   `encC`, `signed_payload`), exactly as the source consumes them through
   the `HashT` / `AppVerify` / `Encode` traits;
 - fallible code returns `Except Unit`.
-/

/-- Little-endian 4-byte encoding of a `u32`, as produced by
`u32::using_encoded` with the SCALE codec. -/
def u32LE (n : Nat) : List Nat :=
  [n % 256, n / 256 % 256, n / 65536 % 256, n / 16777216 % 256]

/-- Value of a little-endian 4-byte buffer; inverse of `u32LE` on `u32`
range. -/
def leDecode : List Nat → Nat
  | [a, b, c, d] => a + 256 * b + 65536 * c + 16777216 * d
  | _ => 0

/-- Splice `src` into `payload` starting at index `start`: the model of
`payload[start .. start + src.len()].copy_from_slice(src)`. -/
def setRange (payload : List Nat) (start : Nat) (src : List Nat) : List Nat :=
  payload.take start ++ src ++ payload.drop (start + src.length)

/-- Embedding of `collator_signature_payload`: a 100-byte zeroed buffer
successively overwritten at offsets 0, 32, 36, 68. -/
def collator_signature_payload (relay_parent : List Nat) (para_id : Nat)
    (persisted_validation_data_hash : List Nat) (pov_hash : List Nat) : List Nat :=
  let payload := List.replicate 100 0
  let payload := setRange payload 0 relay_parent
  let payload := setRange payload 32 (u32LE para_id)
  let payload := setRange payload 36 persisted_validation_data_hash
  setRange payload 68 pov_hash

/-- Embedding of the free function `check_collator_signature`: rebuild the
payload and test it with the signature-verification primitive `verify`
(called as `signature.verify(payload, collator)` in the source). -/
def check_collator_signature (verify : List Nat → List Nat → List Nat → Bool)
    (relay_parent : List Nat) (para_id : Nat)
    (persisted_validation_data_hash : List Nat) (pov_hash : List Nat)
    (collator : List Nat) (signature : List Nat) : Except Unit Unit :=
  let payload := collator_signature_payload relay_parent para_id
    persisted_validation_data_hash pov_hash
  if verify signature payload collator then Except.ok () else Except.error ()

/-- Embedding of `CandidateDescriptor` (byte-typed fields are byte
lists). -/
structure CandidateDescriptor where
  para_id : Nat
  relay_parent : List Nat
  collator : List Nat
  persisted_validation_data_hash : List Nat
  pov_hash : List Nat
  signature : List Nat

/-- Alias for the free `check_collator_signature`, needed because inside
the `CandidateDescriptor` namespace the bare name resolves to the method
itself. -/
def checkCollatorSignatureFn := check_collator_signature

/-- Embedding of `CandidateDescriptor::check_collator_signature`. -/
def CandidateDescriptor.check_collator_signature
    (d : CandidateDescriptor)
    (verify : List Nat → List Nat → List Nat → Bool) : Except Unit Unit :=
  checkCollatorSignatureFn verify d.relay_parent d.para_id
    d.persisted_validation_data_hash d.pov_hash d.collator d.signature

/-- Embedding of `CandidateCommitments`. -/
structure CandidateCommitments where
  upward_messages : List (List Nat)
  horizontal_messages : List (Nat × List Nat)
  erasure_root : List Nat
  new_validation_code : Option (List Nat)
  head_data : List Nat
  processed_downward_messages : Nat
  hrmp_watermark : Nat

/-- Embedding of `CandidateCommitments::hash`: `BlakeTwo256::hash_of`,
i.e. the opaque hash `Hf` of the opaque SCALE encoding `encC`. -/
def CandidateCommitments.hash (c : CandidateCommitments)
    (Hf : List Nat → List Nat) (encC : CandidateCommitments → List Nat) : List Nat :=
  Hf (encC c)

/-- Embedding of `CandidateReceipt`. -/
structure CandidateReceipt where
  descriptor : CandidateDescriptor
  commitments_hash : List Nat

/-- Embedding of `CandidateReceipt::hash`: the hash of the receipt's
SCALE encoding, which is the descriptor's encoding followed by the raw
32 bytes of `commitments_hash`. -/
def CandidateReceipt.hash (r : CandidateReceipt)
    (Hf : List Nat → List Nat) (encD : CandidateDescriptor → List Nat) : List Nat :=
  Hf (encD r.descriptor ++ r.commitments_hash)

/-- Embedding of `CommittedCandidateReceipt`. -/
structure CommittedCandidateReceipt where
  descriptor : CandidateDescriptor
  commitments : CandidateCommitments

/-- Embedding of `CommittedCandidateReceipt::to_plain`: keep the
descriptor, replace the inline commitments by their hash. -/
def CommittedCandidateReceipt.to_plain (r : CommittedCandidateReceipt)
    (Hf : List Nat → List Nat) (encC : CandidateCommitments → List Nat) : CandidateReceipt :=
  { descriptor := r.descriptor, commitments_hash := r.commitments.hash Hf encC }

/-- Embedding of `CommittedCandidateReceipt::hash`: the source defines it
as `self.to_plain().hash()`. -/
def CommittedCandidateReceipt.hash (r : CommittedCandidateReceipt)
    (Hf : List Nat → List Nat) (encD : CandidateDescriptor → List Nat)
    (encC : CandidateCommitments → List Nat) : List Nat :=
  (r.to_plain Hf encC).hash Hf encD

/-- Hash of the committed receipt's own direct encoding (descriptor
encoding followed by the full commitments encoding) — the non-canonical
digest the spec warns about. -/
def committedEncodingHash (r : CommittedCandidateReceipt)
    (Hf : List Nat → List Nat) (encD : CandidateDescriptor → List Nat)
    (encC : CandidateCommitments → List Nat) : List Nat :=
  Hf (encD r.descriptor ++ encC r.commitments)

/-- Embedding of `BackedCandidate`, parametric in the attestation type
`α` (`ValidityAttestation` lives in the v0 module and is opaque here);
`validator_indices` is the Lsb0 bitfield as a list of booleans. -/
structure BackedCandidate (α : Type) where
  candidate : CommittedCandidateReceipt
  validity_votes : List α
  validator_indices : List Bool

/-- Number of set bits of a bitfield. -/
def setBits (l : List Bool) : Nat := (l.filter (fun b => b)).length

/-- The positional pairing of `check_candidate_backing`'s loop:
`validator_indices.iter().enumerate().filter(set).zip(validity_votes)` —
the n-th set bit's group-local index paired with the n-th attestation
(`zip` truncates at the shorter side). -/
def backingPairs {α : Type} (backed : BackedCandidate α) : List (Nat × α) :=
  (((backed.validator_indices.enum).filter (fun p => p.2)).map Prod.fst).zip
    backed.validity_votes

/-- The body of `check_candidate_backing`'s loop: for each pair, resolve
the group-local index through `validator_lookup` (`ok_or(())?`), check
the attestation with `chk` (signature verification against the resolved
identity), count successes, abort on the first failure. -/
def checkBackingVotes {α ν : Type} (validator_lookup : Nat → Option ν)
    (chk : α → ν → Bool) : List (Nat × α) → Except Unit Nat
  | [] => Except.ok 0
  | (idx, att) :: rest =>
    match validator_lookup idx with
    | none => Except.error ()
    | some vid =>
      if chk att vid then
        match checkBackingVotes validator_lookup chk rest with
        | Except.error _ => Except.error ()
        | Except.ok n => Except.ok (n + 1)
      else Except.error ()

/-- Embedding of `check_candidate_backing`. `Hf`, `encD`, `encC` feed the
canonical candidate hash; `signed_payload att hash ctx` is the opaque
`ValidityAttestation::signed_payload`; `att_sig` extracts the
attestation's signature; `verify sig payload id` is the opaque signature
check. -/
def check_candidate_backing {α ν σ γ : Type}
    (Hf : List Nat → List Nat) (encD : CandidateDescriptor → List Nat)
    (encC : CandidateCommitments → List Nat)
    (signed_payload : α → List Nat → γ → List Nat)
    (att_sig : α → σ)
    (verify : σ → List Nat → ν → Bool)
    (backed : BackedCandidate α)
    (signing_context : γ)
    (group_len : Nat)
    (validator_lookup : Nat → Option ν) : Except Unit Nat :=
  if backed.validator_indices.length ≠ group_len then Except.error ()
  else if backed.validity_votes.length > group_len then Except.error ()
  else
    let hash := backed.candidate.hash Hf encD encC
    match checkBackingVotes validator_lookup
        (fun att vid => verify (att_sig att) (signed_payload att hash signing_context) vid)
        (backingPairs backed) with
    | Except.error _ => Except.error ()
    | Except.ok signed =>
      if signed ≠ backed.validity_votes.length then Except.error ()
      else Except.ok signed

/-- Embedding of `GroupRotationInfo` at the default block-number type. -/
structure GroupRotationInfo where
  session_start_block : Nat
  group_rotation_frequency : Nat
  now : Nat

/-- Embedding of `GroupRotationInfo::group_for_core`. -/
def GroupRotationInfo.group_for_core (g : GroupRotationInfo)
    (core_index : Nat) (cores : Nat) : Nat :=
  if g.group_rotation_frequency = 0 then core_index
  else if cores = 0 then 0
  else
    let cores := min cores 4294967295
    let blocks_since_start := g.now - g.session_start_block
    let rotations := blocks_since_start / g.group_rotation_frequency
    (core_index + rotations) % cores

/-- Embedding of `GroupRotationInfo::next_rotation_at` (the inner
`saturating_sub` and the outer `-` are both truncated subtraction on
`Nat`). -/
def GroupRotationInfo.next_rotation_at (g : GroupRotationInfo) : Nat :=
  if g.group_rotation_frequency = 0 then 0
  else
    let cycle_once := g.now + g.group_rotation_frequency
    cycle_once - (cycle_once - g.session_start_block) % g.group_rotation_frequency

/-- Embedding of `GroupRotationInfo::last_rotation_at`. -/
def GroupRotationInfo.last_rotation_at (g : GroupRotationInfo) : Nat :=
  if g.group_rotation_frequency = 0 then 0
  else g.now - (g.now - g.session_start_block) % g.group_rotation_frequency

/-- A rotation boundary: the session start plus a whole number of
rotation periods. -/
def isRotationBoundary (g : GroupRotationInfo) (h : Nat) : Prop :=
  ∃ k, h = g.session_start_block + k * g.group_rotation_frequency

/-- Splicing at offset 0. -/
lemma setRange_zero (p src : List Nat) : setRange p 0 src = src ++ p.drop src.length := by
  simp [setRange]

/-- Splicing right after a prefix `a` keeps `a`, inserts `src`, and keeps
the tail of `rest` beyond `src.length`. -/
lemma setRange_split (a rest src : List Nat) :
    setRange (a ++ rest) a.length src = a ++ (src ++ rest.drop src.length) := by
  unfold setRange
  rw [List.take_left, ← List.drop_drop, List.drop_left, List.append_assoc]

/-- The `u32` little-endian encoding is always 4 bytes. -/
lemma u32LE_length (n : Nat) : (u32LE n).length = 4 := rfl

/-- With 32-byte hashes, the four splices of `collator_signature_payload`
amount to concatenation. -/
lemma collator_signature_payload_eq_append (rp pvd pov : List Nat) (para : Nat)
    (h1 : rp.length = 32) (h2 : pvd.length = 32) (h3 : pov.length = 32) :
    collator_signature_payload rp para pvd pov = rp ++ (u32LE para ++ (pvd ++ pov)) := by
  have e1 : setRange (List.replicate 100 0) 0 rp = rp ++ List.replicate 68 (0:Nat) := by
    rw [setRange_zero, h1, List.drop_replicate]
  have e2 : setRange (rp ++ List.replicate 68 (0:Nat)) 32 (u32LE para)
      = rp ++ (u32LE para ++ List.replicate 64 (0:Nat)) := by
    rw [← h1, setRange_split, u32LE_length, List.drop_replicate]
  have e3 : setRange (rp ++ (u32LE para ++ List.replicate 64 (0:Nat))) 36 pvd
      = rp ++ (u32LE para ++ (pvd ++ List.replicate 32 (0:Nat))) := by
    have hlen : (rp ++ u32LE para).length = 36 := by
      rw [List.length_append, h1, u32LE_length]
    rw [show rp ++ (u32LE para ++ List.replicate 64 (0:Nat))
          = (rp ++ u32LE para) ++ List.replicate 64 (0:Nat) from
        (List.append_assoc _ _ _).symm,
      ← hlen, setRange_split, h2, List.drop_replicate, List.append_assoc]
  have e4 : setRange (rp ++ (u32LE para ++ (pvd ++ List.replicate 32 (0:Nat)))) 68 pov
      = rp ++ (u32LE para ++ (pvd ++ pov)) := by
    have hlen : ((rp ++ u32LE para) ++ pvd).length = 68 := by
      rw [List.length_append, List.length_append, h1, u32LE_length, h2]
    rw [show rp ++ (u32LE para ++ (pvd ++ List.replicate 32 (0:Nat)))
          = ((rp ++ u32LE para) ++ pvd) ++ List.replicate 32 (0:Nat) from by
        simp [List.append_assoc],
      ← hlen, setRange_split, h3, List.drop_replicate]
    simp [List.append_assoc]
  show setRange (setRange (setRange (setRange (List.replicate 100 0) 0 rp)
      32 (u32LE para)) 36 pvd) 68 pov = _
  rw [e1, e2, e3, e4]

/-- C2 (confirmed): for 32-byte hashes and a `u32` para id,
`collator_signature_payload` returns exactly 100 bytes, laid out as
relay-parent at bytes 0..32, the little-endian 4-byte para id at bytes
32..36 (decoding back to `para_id`), the persisted-validation-data hash
at bytes 36..68, the PoV hash at bytes 68..100; and it is a pure
function: two calls with identical inputs produce identical bytes. -/
theorem collator_signature_payload_layout (rp pvd pov : List Nat) (para : Nat)
    (h1 : rp.length = 32) (h2 : pvd.length = 32) (h3 : pov.length = 32)
    (h4 : para < 4294967296) :
    (collator_signature_payload rp para pvd pov).length = 100 ∧
    (collator_signature_payload rp para pvd pov).take 32 = rp ∧
    ((collator_signature_payload rp para pvd pov).drop 32).take 4 = u32LE para ∧
    ((collator_signature_payload rp para pvd pov).drop 36).take 32 = pvd ∧
    (collator_signature_payload rp para pvd pov).drop 68 = pov ∧
    leDecode (((collator_signature_payload rp para pvd pov).drop 32).take 4) = para ∧
    collator_signature_payload rp para pvd pov = collator_signature_payload rp para pvd pov := by
  have hp := collator_signature_payload_eq_append rp pvd pov para h1 h2 h3
  have hd32 : (collator_signature_payload rp para pvd pov).drop 32
      = u32LE para ++ (pvd ++ pov) := by
    rw [hp, List.drop_left' h1]
  refine ⟨?_, ?_, ?_, ?_, ?_, ?_, rfl⟩
  · rw [hp]
    simp [List.length_append, h1, h2, h3, u32LE_length]
  · rw [hp, List.take_left' h1]
  · rw [hd32, List.take_left' (u32LE_length para)]
  · rw [hp, show rp ++ (u32LE para ++ (pvd ++ pov))
        = (rp ++ u32LE para) ++ (pvd ++ pov) from (List.append_assoc _ _ _).symm,
      List.drop_left' (by rw [List.length_append, h1, u32LE_length]),
      List.take_left' h2]
  · rw [hp, show rp ++ (u32LE para ++ (pvd ++ pov))
        = ((rp ++ u32LE para) ++ pvd) ++ pov from by simp [List.append_assoc],
      List.drop_left' (by rw [List.length_append, List.length_append, h1, u32LE_length, h2])]
  · rw [hd32, List.take_left' (u32LE_length para)]
    simp only [u32LE, leDecode]
    omega

/-- Witness for C2 at concrete 32-byte inputs. -/
theorem collator_signature_payload_layout_witness :
    (List.replicate 32 1).length = 32 ∧ (5:Nat) < 4294967296 ∧
    (collator_signature_payload (List.replicate 32 1) 5
      (List.replicate 32 2) (List.replicate 32 3)).length = 100 ∧
    leDecode (((collator_signature_payload (List.replicate 32 1) 5
      (List.replicate 32 2) (List.replicate 32 3)).drop 32).take 4) = 5 := by
  have h := collator_signature_payload_layout (List.replicate 32 1)
    (List.replicate 32 2) (List.replicate 32 3) 5
    (by decide) (by decide) (by decide) (by decide)
  exact ⟨by decide, by decide, h.1, h.2.2.2.2.2.1⟩

/-- C7 (confirmed): `CandidateDescriptor::check_collator_signature`
rebuilds the 100-byte payload from the descriptor's own fields and
returns `Ok` iff the signature-verify primitive returns `true` for that
payload under the descriptor's collator key, an error iff it returns
`false`; it is pure, so calling it twice gives the same result. -/
theorem check_collator_signature_iff_verify
    (verify : List Nat → List Nat → List Nat → Bool) (d : CandidateDescriptor) :
    (d.check_collator_signature verify = Except.ok () ↔
      verify d.signature (collator_signature_payload d.relay_parent d.para_id
        d.persisted_validation_data_hash d.pov_hash) d.collator = true) ∧
    (d.check_collator_signature verify = Except.error () ↔
      verify d.signature (collator_signature_payload d.relay_parent d.para_id
        d.persisted_validation_data_hash d.pov_hash) d.collator = false) ∧
    d.check_collator_signature verify = d.check_collator_signature verify := by
  unfold CandidateDescriptor.check_collator_signature checkCollatorSignatureFn
    check_collator_signature
  cases hv : verify d.signature (collator_signature_payload d.relay_parent d.para_id
      d.persisted_validation_data_hash d.pov_hash) d.collator <;>
    simp [hv]

/-- C8 (confirmed): for every `CommittedCandidateReceipt`, `hash` equals
`to_plain().hash()` (the two canonical-hash code paths agree, whatever
the hash primitive and encodings are), and this canonical value differs,
in general, from directly hashing the committed form's own encoding:
there is an instantiation of the opaque hash/codec and a receipt where
the two digests disagree. -/
theorem committed_receipt_hash_canonical :
    (∀ (Hf : List Nat → List Nat) (encD : CandidateDescriptor → List Nat)
       (encC : CandidateCommitments → List Nat) (r : CommittedCandidateReceipt),
       r.hash Hf encD encC = (r.to_plain Hf encC).hash Hf encD) ∧
    (∃ (Hf : List Nat → List Nat) (encD : CandidateDescriptor → List Nat)
       (encC : CandidateCommitments → List Nat) (r : CommittedCandidateReceipt),
       committedEncodingHash r Hf encD encC ≠ r.hash Hf encD encC) := by
  constructor
  · intro Hf encD encC r
    rfl
  · refine ⟨fun l => [l.length], fun _ => [], fun _ => [0, 0],
      ⟨⟨0, [], [], [], [], []⟩, ⟨[], [], [], none, [], 0, 0⟩⟩, ?_⟩
    decide

/-- Filtering the set bits of an enumerated bitfield yields as many
entries as there are set bits, whatever the starting index. -/
lemma filter_enumFrom_length (l : List Bool) :
    ∀ n, ((List.enumFrom n l).filter (fun p => p.2)).length
      = (l.filter (fun b => b)).length := by
  induction l with
  | nil => intro n; rfl
  | cons b t ih =>
    intro n
    cases b <;> simp [List.enumFrom_cons, List.filter_cons, ih (n + 1)]

/-- The loop of `check_candidate_backing` walks
`min (set bits) (validity_votes.length)` pairs. -/
lemma backingPairs_length {α : Type} (backed : BackedCandidate α) :
    (backingPairs backed).length
      = min (setBits backed.validator_indices) backed.validity_votes.length := by
  unfold backingPairs setBits
  rw [List.length_zip, List.length_map,
    show backed.validator_indices.enum
      = List.enumFrom 0 backed.validator_indices from rfl,
    filter_enumFrom_length]

/-- A successful vote walk checked exactly one signature per pair. -/
lemma checkBackingVotes_ok_length {α ν : Type} (validator_lookup : Nat → Option ν)
    (chk : α → ν → Bool) :
    ∀ (l : List (Nat × α)) (n : Nat),
      checkBackingVotes validator_lookup chk l = Except.ok n → n = l.length := by
  intro l
  induction l with
  | nil =>
    intro n h
    simp [checkBackingVotes] at h
    subst h
    rfl
  | cons p rest ih =>
    obtain ⟨idx, att⟩ := p
    intro n h
    rcases hl : validator_lookup idx with _ | vid
    · simp [checkBackingVotes, hl] at h
    · by_cases hc : chk att vid
      · cases hr : checkBackingVotes validator_lookup chk rest with
        | error e => simp [checkBackingVotes, hl, hc, hr] at h
        | ok m =>
          simp [checkBackingVotes, hl, hc, hr] at h
          have hm := ih m hr
          simp [List.length_cons]
          omega
      · simp [checkBackingVotes, hl, hc] at h

/-- A successful vote walk resolved every paired index to an identity and
verified every paired attestation. -/
lemma checkBackingVotes_ok_sound {α ν : Type} (validator_lookup : Nat → Option ν)
    (chk : α → ν → Bool) :
    ∀ (l : List (Nat × α)) (n : Nat),
      checkBackingVotes validator_lookup chk l = Except.ok n →
      ∀ p ∈ l, ∃ vid, validator_lookup p.1 = some vid ∧ chk p.2 vid = true := by
  intro l
  induction l with
  | nil => intro n _ p hp; cases hp
  | cons q rest ih =>
    obtain ⟨idx, att⟩ := q
    intro n h p hp
    rcases hl : validator_lookup idx with _ | vid
    · simp [checkBackingVotes, hl] at h
    · by_cases hc : chk att vid
      · cases hr : checkBackingVotes validator_lookup chk rest with
        | error e => simp [checkBackingVotes, hl, hc, hr] at h
        | ok m =>
          rcases List.mem_cons.mp hp with rfl | hmem
          · exact ⟨vid, hl, hc⟩
          · exact ih m hr p hmem
      · simp [checkBackingVotes, hl, hc] at h

/-- A group-size mismatch makes `check_candidate_backing` fail
immediately. -/
lemma check_candidate_backing_guard_len {α ν σ γ : Type}
    (Hf : List Nat → List Nat) (encD : CandidateDescriptor → List Nat)
    (encC : CandidateCommitments → List Nat)
    (signed_payload : α → List Nat → γ → List Nat) (att_sig : α → σ)
    (verify : σ → List Nat → ν → Bool) (backed : BackedCandidate α)
    (signing_context : γ) (group_len : Nat) (validator_lookup : Nat → Option ν)
    (h1 : backed.validator_indices.length ≠ group_len) :
    check_candidate_backing Hf encD encC signed_payload att_sig verify backed
      signing_context group_len validator_lookup = Except.error () := by
  unfold check_candidate_backing
  rw [if_pos h1]

/-- Supplying more votes than the group size makes
`check_candidate_backing` fail. -/
lemma check_candidate_backing_guard_votes {α ν σ γ : Type}
    (Hf : List Nat → List Nat) (encD : CandidateDescriptor → List Nat)
    (encC : CandidateCommitments → List Nat)
    (signed_payload : α → List Nat → γ → List Nat) (att_sig : α → σ)
    (verify : σ → List Nat → ν → Bool) (backed : BackedCandidate α)
    (signing_context : γ) (group_len : Nat) (validator_lookup : Nat → Option ν)
    (h2 : backed.validity_votes.length > group_len) :
    check_candidate_backing Hf encD encC signed_payload att_sig verify backed
      signing_context group_len validator_lookup = Except.error () := by
  unfold check_candidate_backing
  by_cases h1 : backed.validator_indices.length ≠ group_len
  · rw [if_pos h1]
  · rw [if_neg h1, if_pos h2]

/-- When the two guards pass, `check_candidate_backing` is the vote walk
followed by the final vote-count comparison. -/
lemma check_candidate_backing_eq {α ν σ γ : Type}
    (Hf : List Nat → List Nat) (encD : CandidateDescriptor → List Nat)
    (encC : CandidateCommitments → List Nat)
    (signed_payload : α → List Nat → γ → List Nat) (att_sig : α → σ)
    (verify : σ → List Nat → ν → Bool) (backed : BackedCandidate α)
    (signing_context : γ) (group_len : Nat) (validator_lookup : Nat → Option ν)
    (h1 : ¬ backed.validator_indices.length ≠ group_len)
    (h2 : ¬ backed.validity_votes.length > group_len) :
    check_candidate_backing Hf encD encC signed_payload att_sig verify backed
      signing_context group_len validator_lookup
      = match checkBackingVotes validator_lookup
          (fun att vid => verify (att_sig att)
            (signed_payload att (backed.candidate.hash Hf encD encC) signing_context) vid)
          (backingPairs backed) with
        | Except.error _ => Except.error ()
        | Except.ok signed =>
          if signed ≠ backed.validity_votes.length then Except.error ()
          else Except.ok signed := by
  unfold check_candidate_backing
  rw [if_neg h1, if_neg h2]

/-- C3 (confirmed): `check_candidate_backing` returns an error value (it
is total, so it never panics) when the bitfield length differs from
`group_len`, when more votes than `group_len` are supplied, when the
lookup resolves no identity for a paired group-local index, or when any
single paired attestation fails signature verification — one bad
signature anywhere fails the whole check, with no partial acceptance. -/
theorem check_candidate_backing_error_cases {α ν σ γ : Type}
    (Hf : List Nat → List Nat) (encD : CandidateDescriptor → List Nat)
    (encC : CandidateCommitments → List Nat)
    (signed_payload : α → List Nat → γ → List Nat) (att_sig : α → σ)
    (verify : σ → List Nat → ν → Bool) (backed : BackedCandidate α)
    (signing_context : γ) (group_len : Nat) (validator_lookup : Nat → Option ν)
    (h : backed.validator_indices.length ≠ group_len ∨
         backed.validity_votes.length > group_len ∨
         (∃ p ∈ backingPairs backed, validator_lookup p.1 = none) ∨
         (∃ p ∈ backingPairs backed, ∃ vid, validator_lookup p.1 = some vid ∧
            verify (att_sig p.2)
              (signed_payload p.2 (backed.candidate.hash Hf encD encC) signing_context)
              vid = false)) :
    check_candidate_backing Hf encD encC signed_payload att_sig verify backed
      signing_context group_len validator_lookup = Except.error () := by
  by_cases h1 : backed.validator_indices.length ≠ group_len
  · exact check_candidate_backing_guard_len Hf encD encC signed_payload att_sig
      verify backed signing_context group_len validator_lookup h1
  by_cases h2 : backed.validity_votes.length > group_len
  · exact check_candidate_backing_guard_votes Hf encD encC signed_payload att_sig
      verify backed signing_context group_len validator_lookup h2
  have hcd : (∃ p ∈ backingPairs backed, validator_lookup p.1 = none) ∨
      (∃ p ∈ backingPairs backed, ∃ vid, validator_lookup p.1 = some vid ∧
        verify (att_sig p.2)
          (signed_payload p.2 (backed.candidate.hash Hf encD encC) signing_context)
          vid = false) := by
    rcases h with h | h | h | h
    · exact absurd h h1
    · exact absurd h h2
    · exact Or.inl h
    · exact Or.inr h
  rw [check_candidate_backing_eq Hf encD encC signed_payload att_sig verify backed
    signing_context group_len validator_lookup h1 h2]
  cases hcv : checkBackingVotes validator_lookup
      (fun att vid => verify (att_sig att)
        (signed_payload att (backed.candidate.hash Hf encD encC) signing_context) vid)
      (backingPairs backed) with
  | error e => rfl
  | ok m =>
    exfalso
    have hs := checkBackingVotes_ok_sound validator_lookup
      (fun att vid => verify (att_sig att)
        (signed_payload att (backed.candidate.hash Hf encD encC) signing_context) vid)
      (backingPairs backed) m hcv
    rcases hcd with ⟨p, hp, hnone⟩ | ⟨p, hp, vid, hsome, hfalse⟩
    · obtain ⟨vid, hv, _⟩ := hs p hp
      rw [hnone] at hv
      exact Option.noConfusion hv
    · obtain ⟨vid2, hv, ht⟩ := hs p hp
      rw [hsome] at hv
      obtain rfl : vid = vid2 := Option.some.inj hv
      have ht2 : verify (att_sig p.2)
          (signed_payload p.2 (backed.candidate.hash Hf encD encC) signing_context)
          vid = true := ht
      rw [hfalse] at ht2
      exact Bool.noConfusion ht2

/-- Witness for C3: a concrete backed candidate whose bitfield length 1
differs from the group size 2 is rejected. -/
theorem check_candidate_backing_error_cases_witness :
    check_candidate_backing (fun _ => []) (fun _ => []) (fun _ => [])
      (fun _ _ _ => []) (fun _ => ()) (fun _ _ _ => true)
      (⟨⟨⟨0, [], [], [], [], []⟩, ⟨[], [], [], none, [], 0, 0⟩⟩, [], [true]⟩ :
        BackedCandidate Unit)
      () 2 (fun _ => some ()) = Except.error () :=
  check_candidate_backing_error_cases (fun _ => []) (fun _ => []) (fun _ => [])
    (fun _ _ _ => []) (fun _ => ()) (fun _ _ _ => true)
    (⟨⟨⟨0, [], [], [], [], []⟩, ⟨[], [], [], none, [], 0, 0⟩⟩, [], [true]⟩ :
      BackedCandidate Unit)
    () 2 (fun _ => some ()) (Or.inl (by decide))

/-- C1 (corrected): with `validator_indices.length == group_len` and
`validity_votes.length <= group_len`, `check_candidate_backing` fails
whenever the bitfield has FEWER set bits than votes supplied; on success
the returned signed count equals `validity_votes.length` (which is then
at most the number of set bits — when set bits exceed the votes, the
positional zip silently truncates and the check can still succeed); and
with all bits clear it succeeds with count 0 iff `validity_votes` is
empty, otherwise it fails. -/
theorem check_candidate_backing_vote_count_amended {α ν σ γ : Type}
    (Hf : List Nat → List Nat) (encD : CandidateDescriptor → List Nat)
    (encC : CandidateCommitments → List Nat)
    (signed_payload : α → List Nat → γ → List Nat) (att_sig : α → σ)
    (verify : σ → List Nat → ν → Bool) (backed : BackedCandidate α)
    (signing_context : γ) (group_len : Nat) (validator_lookup : Nat → Option ν)
    (h1 : backed.validator_indices.length = group_len)
    (h2 : backed.validity_votes.length ≤ group_len) :
    (setBits backed.validator_indices < backed.validity_votes.length →
      check_candidate_backing Hf encD encC signed_payload att_sig verify backed
        signing_context group_len validator_lookup = Except.error ()) ∧
    (∀ n, check_candidate_backing Hf encD encC signed_payload att_sig verify backed
        signing_context group_len validator_lookup = Except.ok n →
      n = backed.validity_votes.length ∧
      backed.validity_votes.length ≤ setBits backed.validator_indices) ∧
    (setBits backed.validator_indices = 0 →
      (check_candidate_backing Hf encD encC signed_payload att_sig verify backed
        signing_context group_len validator_lookup = Except.ok 0 ↔
        backed.validity_votes = [])) := by
  have hbp := backingPairs_length backed
  rw [check_candidate_backing_eq Hf encD encC signed_payload att_sig verify backed
    signing_context group_len validator_lookup (by simp [h1]) (Nat.not_lt.mpr h2)]
  cases hcv : checkBackingVotes validator_lookup
      (fun att vid => verify (att_sig att)
        (signed_payload att (backed.candidate.hash Hf encD encC) signing_context) vid)
      (backingPairs backed) with
  | error e =>
    refine ⟨fun _ => rfl, fun n hn => absurd hn (by simp), fun hz => ?_⟩
    have hp0 : backingPairs backed = [] := by
      rw [← List.length_eq_zero]
      omega
    rw [hp0] at hcv
    simp [checkBackingVotes] at hcv
  | ok m =>
    have hm := checkBackingVotes_ok_length validator_lookup
      (fun att vid => verify (att_sig att)
        (signed_payload att (backed.candidate.hash Hf encD encC) signing_context) vid)
      (backingPairs backed) m hcv
    refine ⟨?_, ?_, ?_⟩
    · intro hlt
      show (if m ≠ backed.validity_votes.length then Except.error ()
        else Except.ok m) = Except.error ()
      rw [if_pos (by omega)]
    · intro n hn
      have hn2 : (if m ≠ backed.validity_votes.length then Except.error ()
          else Except.ok m) = Except.ok n := hn
      by_cases hmv : m ≠ backed.validity_votes.length
      · rw [if_pos hmv] at hn2
        exact absurd hn2 (by simp)
      · rw [if_neg hmv] at hn2
        have hmn : m = n := Except.ok.inj hn2
        push_neg at hmv
        constructor <;> omega
    · intro hz
      have hp0 : backingPairs backed = [] := by
        rw [← List.length_eq_zero]
        omega
      rw [hp0] at hcv
      have hm0 : m = 0 := by
        simp [checkBackingVotes] at hcv
        omega
      subst hm0
      show (if (0:Nat) ≠ backed.validity_votes.length then Except.error ()
        else Except.ok 0) = Except.ok 0 ↔ backed.validity_votes = []
      rcases hv : backed.validity_votes with _ | ⟨a, rest⟩
      · simp
      · simp

/-- Witness for C1 (amended) at a concrete input: one clear bit, one
vote — fewer set bits than votes, so the check fails. -/
theorem check_candidate_backing_vote_count_witness :
    ([false] : List Bool).length = 1 ∧ ([()] : List Unit).length ≤ 1 ∧
    setBits [false] < ([()] : List Unit).length ∧
    check_candidate_backing (fun _ => []) (fun _ => []) (fun _ => [])
      (fun _ _ _ => []) (fun _ => ()) (fun _ _ _ => true)
      (⟨⟨⟨0, [], [], [], [], []⟩, ⟨[], [], [], none, [], 0, 0⟩⟩, [()], [false]⟩ :
        BackedCandidate Unit)
      () 1 (fun _ => some ()) = Except.error () := by
  refine ⟨rfl, by decide, by decide, ?_⟩
  exact (check_candidate_backing_vote_count_amended (fun _ => []) (fun _ => [])
    (fun _ => []) (fun _ _ _ => []) (fun _ => ()) (fun _ _ _ => true)
    (⟨⟨⟨0, [], [], [], [], []⟩, ⟨[], [], [], none, [], 0, 0⟩⟩, [()], [false]⟩ :
      BackedCandidate Unit)
    () 1 (fun _ => some ()) rfl (by decide)).1 (by decide)

/-- Counterexample to C1 as stated: two set bits but a single vote, every
signature valid and every lookup resolving — the claim says this must
fail with a vote-count mismatch (set bits exceed the votes supplied), yet
the code returns `Ok 1` because the positional zip truncates before the
final count comparison. -/
theorem check_candidate_backing_excess_bits_counterexample :
    setBits [true, true] = 2 ∧ ([()] : List Unit).length = 1 ∧
    ([true, true] : List Bool).length = 2 ∧
    check_candidate_backing (fun _ => []) (fun _ => []) (fun _ => [])
      (fun _ _ _ => []) (fun _ => ()) (fun _ _ _ => true)
      (⟨⟨⟨0, [], [], [], [], []⟩, ⟨[], [], [], none, [], 0, 0⟩⟩, [()], [true, true]⟩ :
        BackedCandidate Unit)
      () 2 (fun _ => some ()) = Except.ok 1 := by
  refine ⟨rfl, rfl, rfl, ?_⟩
  rfl

/-- C4 (confirmed): `group_for_core` returns the core index itself when
rotation is disabled (frequency 0), group 0 when there are no cores, and
otherwise `(core_index + (now - session_start_block) / frequency) mod
min(cores, u32::MAX)`, the subtraction saturating at 0. -/
theorem group_for_core_formula (g : GroupRotationInfo) (core_index cores : Nat) :
    (g.group_rotation_frequency = 0 → g.group_for_core core_index cores = core_index) ∧
    (g.group_rotation_frequency ≠ 0 → cores = 0 → g.group_for_core core_index cores = 0) ∧
    (g.group_rotation_frequency ≠ 0 → cores ≠ 0 →
      g.group_for_core core_index cores
        = (core_index + (g.now - g.session_start_block) / g.group_rotation_frequency)
            % min cores 4294967295) := by
  obtain ⟨s, f, n⟩ := g
  dsimp only
  refine ⟨fun h0 => ?_, fun hf hc => ?_, fun hf hc => ?_⟩
  · simp [GroupRotationInfo.group_for_core, h0]
  · simp [GroupRotationInfo.group_for_core, hf, hc]
  · simp [GroupRotationInfo.group_for_core, hf, hc]

/-- Witness for C4 at a concrete rotating configuration. -/
theorem group_for_core_formula_witness :
    (5:Nat) ≠ 0 ∧ (3:Nat) ≠ 0 ∧
    GroupRotationInfo.group_for_core ⟨0, 5, 7⟩ 2 3 = (2 + (7 - 0) / 5) % min 3 4294967295 := by
  refine ⟨by decide, by decide, ?_⟩
  exact (group_for_core_formula ⟨0, 5, 7⟩ 2 3).2.2 (by decide) (by decide)

/-- C9 (confirmed): with rotation enabled and a positive core count, the
group index returned by `group_for_core` is strictly below
`min(cores, u32::MAX)`, for every core index (even an out-of-range one)
and every current block. -/
theorem group_for_core_lt_cores (g : GroupRotationInfo) (core_index cores : Nat)
    (hf : g.group_rotation_frequency ≠ 0) (hc : 0 < cores) :
    g.group_for_core core_index cores < min cores 4294967295 := by
  obtain ⟨s, f, n⟩ := g
  dsimp only at hf ⊢
  show (if f = 0 then core_index else if cores = 0 then 0 else
    (core_index + (n - s) / f) % min cores 4294967295) < min cores 4294967295
  rw [if_neg hf, if_neg (by omega)]
  exact Nat.mod_lt _ (by omega)

/-- Witness for C9 at a concrete configuration with an out-of-range core
index. -/
theorem group_for_core_lt_cores_witness :
    (4:Nat) ≠ 0 ∧ (0:Nat) < 3 ∧
    GroupRotationInfo.group_for_core ⟨1, 4, 9⟩ 5 3 < min 3 4294967295 :=
  ⟨by decide, by decide, group_for_core_lt_cores ⟨1, 4, 9⟩ 5 3 (by decide) (by decide)⟩

/-- C5 (corrected, amended part): `next_rotation_at` returns 0 when the
frequency is 0; when rotation is enabled and the session has started
(`session_start_block <= now`), it returns a rotation boundary strictly
greater than `now`, and no smaller boundary lies strictly above `now` —
i.e. the smallest boundary strictly greater than every boundary at or
before `now`. (When `now + frequency < session_start_block` the code
returns `now + frequency`, which is not a boundary — see the
counterexample.) -/
theorem next_rotation_at_boundary_amended (g : GroupRotationInfo) :
    (g.group_rotation_frequency = 0 → g.next_rotation_at = 0) ∧
    (g.group_rotation_frequency ≠ 0 → g.session_start_block ≤ g.now →
      isRotationBoundary g g.next_rotation_at ∧
      g.now < g.next_rotation_at ∧
      ∀ h, isRotationBoundary g h → g.now < h → g.next_rotation_at ≤ h) := by
  obtain ⟨s, f, n⟩ := g
  dsimp only
  constructor
  · intro h0
    simp [GroupRotationInfo.next_rotation_at, h0]
  · intro hf hs
    have hfpos : 0 < f := Nat.pos_of_ne_zero hf
    have hne : GroupRotationInfo.next_rotation_at ⟨s, f, n⟩ = n + f - (n - s) % f := by
      show (if f = 0 then 0 else n + f - (n + f - s) % f) = n + f - (n - s) % f
      rw [if_neg hf]
      have hsplit : n + f - s = (n - s) + f := by omega
      rw [hsplit, Nat.add_mod_right]
    have h1 : (n - s) / f * f + (n - s) % f = n - s := Nat.div_add_mod' (n - s) f
    have h2 : (n - s) % f < f := Nat.mod_lt _ hfpos
    refine ⟨?_, ?_, ?_⟩
    · show ∃ k, GroupRotationInfo.next_rotation_at ⟨s, f, n⟩ = s + k * f
      refine ⟨(n - s) / f + 1, ?_⟩
      rw [hne, Nat.add_mul, one_mul]
      omega
    · rw [hne]
      omega
    · intro h hb hlt
      obtain ⟨k, hk⟩ : ∃ k, h = s + k * f := hb
      rw [hne]
      have hk1 : (n - s) / f + 1 ≤ k := by
        by_contra hcon
        push_neg at hcon
        have hmul : k * f ≤ (n - s) / f * f := Nat.mul_le_mul_right f (by omega)
        have hdle : (n - s) / f * f ≤ n - s := by omega
        rw [hk] at hlt
        omega
      have hmul2 : ((n - s) / f + 1) * f ≤ k * f := Nat.mul_le_mul_right f hk1
      rw [Nat.add_mul, one_mul] at hmul2
      rw [hk]
      omega

/-- Witness for C5 (amended) at the spec's own example
`session_start_block=10, now=15, frequency=5`: the next rotation is at
20, a boundary strictly after `now`. -/
theorem next_rotation_at_boundary_witness :
    GroupRotationInfo.next_rotation_at ⟨10, 5, 15⟩ = 20 ∧
    isRotationBoundary ⟨10, 5, 15⟩ (GroupRotationInfo.next_rotation_at ⟨10, 5, 15⟩) ∧
    15 < GroupRotationInfo.next_rotation_at ⟨10, 5, 15⟩ := by
  have h := (next_rotation_at_boundary_amended ⟨10, 5, 15⟩).2 (by decide) (by decide)
  exact ⟨by decide, h.1, h.2.1⟩

/-- Counterexample to C5 as stated: with `session_start_block=10`,
`frequency=5`, `now=3` the code returns 8, which is not of the form
`10 + k*5`, so it is not a rotation boundary at all. -/
theorem next_rotation_at_before_session_counterexample :
    GroupRotationInfo.next_rotation_at ⟨10, 5, 3⟩ = 8 ∧
    ¬ isRotationBoundary ⟨10, 5, 3⟩ 8 := by
  constructor
  · decide
  · rintro ⟨k, hk⟩
    have hk2 : (8:Nat) = 10 + k * 5 := hk
    omega

/-- C6 (corrected, amended part): `last_rotation_at` returns 0 when the
frequency is 0; when rotation is enabled and `session_start_block <=
now`, it returns the largest rotation boundary at or below `now`; and
when `now < session_start_block` (no boundary at or below `now` exists)
the saturating subtraction makes it return `now` itself, without
underflow. -/
theorem last_rotation_at_boundary_amended (g : GroupRotationInfo) :
    (g.group_rotation_frequency = 0 → g.last_rotation_at = 0) ∧
    (g.group_rotation_frequency ≠ 0 → g.session_start_block ≤ g.now →
      isRotationBoundary g g.last_rotation_at ∧
      g.last_rotation_at ≤ g.now ∧
      ∀ h, isRotationBoundary g h → h ≤ g.now → h ≤ g.last_rotation_at) ∧
    (g.group_rotation_frequency ≠ 0 → g.now < g.session_start_block →
      g.last_rotation_at = g.now) := by
  obtain ⟨s, f, n⟩ := g
  dsimp only
  refine ⟨?_, ?_, ?_⟩
  · intro h0
    simp [GroupRotationInfo.last_rotation_at, h0]
  · intro hf hs
    have hfpos : 0 < f := Nat.pos_of_ne_zero hf
    have hne : GroupRotationInfo.last_rotation_at ⟨s, f, n⟩ = n - (n - s) % f := by
      show (if f = 0 then 0 else n - (n - s) % f) = n - (n - s) % f
      rw [if_neg hf]
    have h1 : (n - s) / f * f + (n - s) % f = n - s := Nat.div_add_mod' (n - s) f
    have h2 : (n - s) % f < f := Nat.mod_lt _ hfpos
    refine ⟨?_, ?_, ?_⟩
    · show ∃ k, GroupRotationInfo.last_rotation_at ⟨s, f, n⟩ = s + k * f
      refine ⟨(n - s) / f, ?_⟩
      rw [hne]
      omega
    · rw [hne]
      omega
    · intro h hb hle
      obtain ⟨k, hk⟩ : ∃ k, h = s + k * f := hb
      rw [hne, hk]
      have hk1 : k ≤ (n - s) / f := by
        rw [hk] at hle
        exact (Nat.le_div_iff_mul_le hfpos).mpr (by omega)
      have hmul : k * f ≤ (n - s) / f * f := Nat.mul_le_mul_right f hk1
      omega
  · intro hf hlt
    show (if f = 0 then 0 else n - (n - s) % f) = n
    rw [if_neg hf]
    have h0 : n - s = 0 := by omega
    rw [h0, Nat.zero_mod, Nat.sub_zero]

/-- Witness for C6 (amended) at the spec's own example
`session_start_block=10, now=15, frequency=5`: the last rotation is at
15, the largest boundary at or below `now`. -/
theorem last_rotation_at_boundary_witness :
    GroupRotationInfo.last_rotation_at ⟨10, 5, 15⟩ = 15 ∧
    isRotationBoundary ⟨10, 5, 15⟩ (GroupRotationInfo.last_rotation_at ⟨10, 5, 15⟩) ∧
    GroupRotationInfo.last_rotation_at ⟨10, 5, 15⟩ ≤ 15 := by
  have h := (last_rotation_at_boundary_amended ⟨10, 5, 15⟩).2.1 (by decide) (by decide)
  exact ⟨by decide, h.1, h.2.1⟩

/-- Counterexample to C6 as stated: with `session_start_block=10`,
`frequency=5`, `now=5` the code returns 5, which is not of the form
`10 + k*5`, so it is not the largest rotation boundary at or below `now`
(no such boundary exists). -/
theorem last_rotation_at_before_session_counterexample :
    GroupRotationInfo.last_rotation_at ⟨10, 5, 5⟩ = 5 ∧
    ¬ isRotationBoundary ⟨10, 5, 5⟩ 5 := by
  constructor
  · decide
  · rintro ⟨k, hk⟩
    have hk2 : (5:Nat) = 10 + k * 5 := hk
    omega

/-- C10 (confirmed): with rotation enabled and `now` strictly before the
session start, `last_rotation_at` returns `now` itself — the saturating
subtraction zeroes the modulus term. -/
theorem last_rotation_at_now_before_session (g : GroupRotationInfo)
    (hf : 0 < g.group_rotation_frequency) (hlt : g.now < g.session_start_block) :
    g.last_rotation_at = g.now := by
  obtain ⟨s, f, n⟩ := g
  dsimp only at hf hlt ⊢
  show (if f = 0 then 0 else n - (n - s) % f) = n
  rw [if_neg (by omega)]
  have h0 : n - s = 0 := by omega
  rw [h0, Nat.zero_mod, Nat.sub_zero]

/-- Witness for C10 at `session_start_block=10, frequency=5, now=7`. -/
theorem last_rotation_at_now_before_session_witness :
    (0:Nat) < 5 ∧ (7:Nat) < 10 ∧ GroupRotationInfo.last_rotation_at ⟨10, 5, 7⟩ = 7 :=
  ⟨by decide, by decide, last_rotation_at_now_before_session ⟨10, 5, 7⟩ (by decide) (by decide)⟩
